import Mathlib

/-!
Shallow embedding of the OPA/Rego admission-controller fork of Kubernetes:
the policy client (GET/globals and POST/input protocol variants), the
admission decision engines (admit+override and admit+annotate modes), the
annotation merge, and the reflector / mirror-sync event pipeline.

Go `interface{}` values decoded from JSON are modelled by `Json`; Go maps
are modelled by association lists whose observable behaviour is the
first-match lookup (Go maps have unique keys, so the order artefacts of the
list representation are unobservable through lookups).
-/

/-- JSON values, as produced by `encoding/json` decoding into `interface{}`.
A Go `nil` interface obtained from a JSON `null` is `Json.null`. -/
inductive Json where
  | null : Json
  | bool (b : Bool) : Json
  | num (n : Int) : Json
  | str (s : String) : Json
  | arr (elems : List Json) : Json
  | obj (fields : List (String × Json)) : Json

/-- First-match lookup in the field list of a decoded JSON object,
modelling Go's `v[k]` on a `map[string]interface{}` when the key is
present; `none` models an absent key. -/
def findMember : List (String × Json) → String → Option Json
  | [], _ => none
  | (k', v) :: rest, k => if k' = k then some v else findMember rest k

/-- getUID extracts `metadata.uid` from a decoded object via Go type
assertions: the value must be a JSON object whose `metadata` member is a
JSON object whose `uid` member is a string; otherwise the result is `""`.
Source: part_000 `getUID`. -/
def getUID (obj : Json) : String :=
  match obj with
  | .obj fields =>
    match findMember fields "metadata" with
    | some (.obj mfields) =>
      match findMember mfields "uid" with
      | some (.str u) => u
      | _ => ""
    | _ => ""
  | _ => ""

/-- Annotation maps (`map[string]string` in Go), as association lists with
first-match lookup. -/
abbrev AnnMap := List (String × String)

/-- First-match lookup in an annotation map, modelling Go's `m[k]`
presence-aware read. -/
def findAnn : AnnMap → String → Option String
  | [], _ => none
  | (k', v) :: rest, k => if k' = k then some v else findAnn rest k

/-- Key-membership test, modelling Go's `_, ok := m[k]`. -/
def hasAnn (m : AnnMap) (k : String) : Bool :=
  (findAnn m k).isSome

/-- Escape of one character inside a JSON string literal (the cases
`encoding/json` escapes that can arise from the characters we model). -/
def jsonEscapeChar (c : Char) : String :=
  if c = '\"' then "\\\"" else if c = '\\' then "\\\\" else String.singleton c

/-- JSON string literal, as produced by `json.Marshal` of a Go string. -/
def jsonQuote (s : String) : String :=
  "\"" ++ String.join (s.toList.map jsonEscapeChar) ++ "\""

mutual

/-- Serialization of a decoded value back to JSON text, modelling
`json.Marshal` (which cannot fail on values obtained by decoding JSON). -/
def jsonRender : Json → String
  | .null => "null"
  | .bool true => "true"
  | .bool false => "false"
  | .num n => toString n
  | .str s => jsonQuote s
  | .arr elems => "[" ++ String.intercalate "," (jsonRenderList elems) ++ "]"
  | .obj fields => "\x7b" ++ String.intercalate "," (jsonRenderMembers fields) ++ "\x7d"

def jsonRenderList : List Json → List String
  | [] => []
  | v :: rest => jsonRender v :: jsonRenderList rest

def jsonRenderMembers : List (String × Json) → List String
  | [] => []
  | (k, v) :: rest => (jsonQuote k ++ ":" ++ jsonRender v) :: jsonRenderMembers rest

end

/-- A runtime object as seen by the reflection-based annotation code.
`annotationsFld` is `none` when `getAnnotationsField` fails (the object has
no reachable `metadata`/`annotations` field); `some none` models a field
holding a nil map; `some (some m)` a field holding map `m`. `rest` stands
for every other field of the object, which the annotation code never
touches. -/
structure K8sObject where
  rest : Json
  annotationsFld : Option (Option AnnMap)

/-- Loop body of `applyAnnotations`: each existing key absent from the
incoming map is inserted with its existing value (Go iterates the keys of
`origMap`, which are distinct, so checking against the growing map is
equivalent). -/
def mergeFromExisting (origMap incoming : AnnMap) : AnnMap :=
  origMap.foldl (fun acc kv => if hasAnn acc kv.1 then acc else acc ++ [kv]) incoming

/-- applyAnnotations updates the object's metadata/annotations. If the
object does not contain an annotations field, no change is performed.
Go mutates the `anns` map in place and then sets the field to that very
map; the pure embedding returns the updated object together with the
caller's map after the call, so the in-place mutation is observable as
the second component. Source: part_002 `applyAnnotations`. -/
def applyAnnotations (obj : K8sObject) (anns : AnnMap) : K8sObject × AnnMap :=
  match obj.annotationsFld with
  | none => (obj, anns)
  | some origOpt =>
    let origMap := origOpt.getD []
    let merged := mergeFromExisting origMap anns
    ({ obj with annotationsFld := some (some merged) }, merged)

/-- The string stored for one annotation value: strings are taken verbatim,
any other value is serialized to its JSON text. Source: the `switch` in
`decodeAnnotations`. -/
def annValueString : Json → String
  | .str s => s
  | v => jsonRender v

/-- Error message of `decodeAnnotations` for a non-object result
(`"unexpected result of type %T"` in the source, with the dynamic type
elided). -/
def unexpectedResultMsg : String := "unexpected result of type"

/-- decodeAnnotations reads the annotation response from the policy
engine: the result must be a JSON object; an empty object yields the empty
map; otherwise each member becomes an annotation, non-string values being
JSON-serialized. Source: part_002 `decodeAnnotations`. -/
def decodeAnnotations (body : Json) : Except String AnnMap :=
  match body with
  | .obj fields =>
    if fields.isEmpty then .ok []
    else .ok (fields.map fun kv => (kv.1, annValueString kv.2))
  | _ => .error unexpectedResultMsg

/-- Outcome of one `Admit` call: `allow` is a nil error, `forbidden` is
`admission.NewForbidden(a, err)` carrying the underlying error's message,
`errorOut` is any other non-nil error returned verbatim. -/
inductive Outcome where
  | allow : Outcome
  | forbidden (msg : String) : Outcome
  | errorOut (msg : String) : Outcome
deriving DecidableEq

/-- Classification of one policy query, the embedding of the
`(interface{}, error)` pair returned by the clients: a defined result, the
distinguished undefined error, or any other error. -/
inductive QueryResult where
  | success (v : Json) : QueryResult
  | undef : QueryResult
  | queryError (msg : String) : QueryResult

/-- Message of the `undefined` error value (`undefined.Error()`), used by
`admission.NewForbidden` in Mode A. -/
def undefinedMsg : String := "rejected by administrative policy"

/-- Fixed identity of the policy engine itself, exempt from checks in the
federation variant (`opaName` in part_002). -/
def opaName : String := "opa"

/-- The slice of `admission.Attributes` the annotate-mode controllers
read: the acting identity's name and the proposed object (absent for
operations without a body). -/
structure Attributes where
  userName : String
  object : Option K8sObject

namespace ModeA

/-- Admit of the admit+override controller (part_000, lines 82-103): query
the admit document, then on a defined result the override document, with
the same request payload. `query` maps a document path to the policy
client's classified answer for this request; the second component records
the document paths queried, in order. -/
def Admit (admitDoc overrideDoc : String) (query : String → QueryResult) :
    Outcome × List String :=
  match query admitDoc with
  | .undef => (.forbidden undefinedMsg, [admitDoc])
  | .queryError e => (.errorOut e, [admitDoc])
  | .success _ =>
    match query overrideDoc with
    | .undef => (.allow, [admitDoc, overrideDoc])
    | .queryError e => (.errorOut e, [admitDoc, overrideDoc])
    | .success _ => (.allow, [admitDoc, overrideDoc])

end ModeA

namespace Federation

/-- Admit of the federation annotate-mode controller (part_002, lines
263-311). `encode` stands for `encodeObject` (the codec is an external
collaborator), `query` for the annotations-document query as a function of
the encoded input. Returns the outcome, whether a policy query was issued,
and the proposed object after the call. -/
def Admit (encode : K8sObject → Except String Json) (query : Json → QueryResult)
    (a : Attributes) : Outcome × Bool × Option K8sObject :=
  if a.userName = opaName then (.allow, false, a.object)
  else
    match a.object with
    | none => (.allow, false, none)
    | some obj =>
      match encode obj with
      | .error e => (.forbidden e, false, some obj)
      | .ok input =>
        match query input with
        | .undef => (.allow, true, some obj)
        | .queryError e => (.forbidden e, true, some obj)
        | .success result =>
          match decodeAnnotations result with
          | .error e => (.forbidden e, true, some obj)
          | .ok anns =>
            if anns.isEmpty then (.allow, true, some obj)
            else (.allow, true, some (applyAnnotations obj anns).1)

end Federation

namespace Opa

/-- Ignored returns true if the request can be ignored based on the
sender. Source: part_001 `config.Ignored`. -/
def Ignored (ignoreUserNames : List String) (name : String) : Bool :=
  ignoreUserNames.any fun x => x = name

/-- Admit of the `opa`-package annotate-mode controller (part_001, lines
202-243), identical to the federation variant except that the exempt
identities come from the configured `ignoreUserNames` list. -/
def Admit (ignoreUserNames : List String) (encode : K8sObject → Except String Json)
    (query : Json → QueryResult) (a : Attributes) : Outcome × Bool × Option K8sObject :=
  if Ignored ignoreUserNames a.userName then (.allow, false, a.object)
  else
    match a.object with
    | none => (.allow, false, none)
    | some obj =>
      match encode obj with
      | .error e => (.forbidden e, false, some obj)
      | .ok input =>
        match query input with
        | .undef => (.allow, true, some obj)
        | .queryError e => (.forbidden e, true, some obj)
        | .success result =>
          match decodeAnnotations result with
          | .error e => (.forbidden e, true, some obj)
          | .ok anns =>
            if anns.isEmpty then (.allow, true, some obj)
            else (.allow, true, some (applyAnnotations obj anns).1)

end Opa

/-- Observable outcome of one HTTP round trip: a connection failure, or a
response with its status code, whether the Content-Type header contains
`application/json`, and the body decoded as generic JSON (`none` when the
body is not well-formed JSON). -/
inductive HttpResult where
  | connError (msg : String) : HttpResult
  | response (status : Nat) (contentTypeJson : Bool) (body : Option Json) : HttpResult

/-- Placeholder message for a JSON decoder error (the concrete text varies
with the malformed input in Go). -/
def decodeFailureMsg : String := "decode failure"

/-- Go's `v[k] != nil` on a decoded generic value: true iff `v` is a JSON
object with member `k` whose value is not JSON null (a null member decodes
to a nil interface, indistinguishable from an absent key). -/
def hasNonNullMember (v : Json) (k : String) : Bool :=
  match v with
  | .obj fields =>
    match findMember fields k with
    | some .null => false
    | some _ => true
    | none => false
  | _ => false

/-- Query of the GET/globals protocol variant (client.go, lines 51-87):
decode the body as generic JSON, then 200 is success, 404 with a non-nil
`IsUndefined` member in the decoded object is undefined, anything else a
generic error. -/
def httpClientQuery (r : HttpResult) : QueryResult :=
  match r with
  | .connError e => .queryError e
  | .response status _ body =>
    match body with
    | none => .queryError decodeFailureMsg
    | some v =>
      if status = 200 then .success v
      else if status = 404 && hasNonNullMember v "IsUndefined" then .undef
      else .queryError ("bad response: " ++ toString status)

/-- Decoding a generic JSON value into the `dataResponseV1` struct:
succeeds on JSON null (zero value) and on objects (the `result` member,
absent or null giving a nil result); fails on any other shape. -/
def decodeDataResponseV1 (v : Json) : Option Json :=
  match v with
  | .null => some .null
  | .obj fields => some ((findMember fields "result").getD .null)
  | _ => none

/-- Decoding one member into an `int` struct field: absent or null gives
the zero value, a number gives its value, any other shape fails. -/
def intField : Option Json → Option Int
  | none => some 0
  | some .null => some 0
  | some (.num n) => some n
  | some _ => none

/-- Decoding one member into a `string` struct field. -/
def strField : Option Json → Option String
  | none => some ""
  | some .null => some ""
  | some (.str s) => some s
  | some _ => none

/-- Decoding a generic JSON value into the `errorResponseV1` struct with
`code`/`message` members. -/
def decodeErrorResponseV1 (v : Json) : Option (Int × String) :=
  match v with
  | .null => some (0, "")
  | .obj fields =>
    match intField (findMember fields "code"), strField (findMember fields "message") with
    | some c, some m => some (c, m)
    | _, _ => none
  | _ => none

/-- A POST/input protocol request under construction (part_002 `Request`);
`input` is `none` when `WithInput` was never called. -/
structure Request where
  baseURL : String
  queryPath : String
  input : Option Json

/-- Do of the POST/input protocol variant (part_002, lines 69-123): after
the guards, every 404 is undefined, 200 decodes `dataResponseV1` and
carries its result, any other status yields an error decoded from the
body when the response is JSON. `http` is the round trip's outcome. -/
def Request.Do (r : Request) (http : HttpResult) : QueryResult :=
  if r.queryPath = "" then .queryError "not implemented"
  else
    match r.input with
    | none => .queryError "not implemented"
    | some _ =>
      match http with
      | .connError e => .queryError e
      | .response status ctJson body =>
        if status = 404 then .undef
        else if status = 200 then
          match body with
          | none => .queryError decodeFailureMsg
          | some b =>
            match decodeDataResponseV1 b with
            | none => .queryError decodeFailureMsg
            | some result => .success result
        else if ctJson then
          match body with
          | none => .queryError decodeFailureMsg
          | some b =>
            match decodeErrorResponseV1 b with
            | none => .queryError decodeFailureMsg
            | some cm => .queryError ("code " ++ toString cm.1 ++ ": " ++ cm.2)
        else .queryError ("bad status code: " ++ toString status)

/-- One change notification decoded from the watch stream (part_001
`syncObject`); `object` is its decoded `object` member. -/
structure syncObject where
  type : String
  object : Json

/-- Watch stream change kinds (part_001 constants). -/
def added : String := "ADDED"

/-- Watch stream change kind MODIFIED. -/
def modified : String := "MODIFIED"

/-- Watch stream change kind DELETED. -/
def deleted : String := "DELETED"

/-- One call to `client.Patch` issued by the mirror sync loop: the
operation string (`add`, `replace`, `remove`, or the zero value `""` for
an unrecognized change kind), the target path, and the value (`none` when
the Go call passes nil). -/
structure PatchCall where
  op : String
  path : String
  value : Option Json

/-- Operation and value the sync branch of the mirror loop selects for a
change kind (the `switch` on `msg.Type` in part_000; an unrecognized kind
leaves the zero values). -/
def syncOpFor (type : String) (obj : Json) : String × Option Json :=
  if type = added then ("add", some obj)
  else if type = modified then ("replace", some obj)
  else if type = deleted then ("remove", none)
  else ("", none)

/-- Patch calls the mirror sync loop issues for one `syncObject` event
(part_000, lines 149-171): none when the UID cannot be extracted, else one
patch at `/resourceType/uid`. -/
def processSyncEvent (resourceType : String) (msg : syncObject) : List PatchCall :=
  let uid := getUID msg.object
  if uid = "" then []
  else
    let path := "/" ++ resourceType ++ "/" ++ uid
    let ov := syncOpFor msg.type msg.object
    [⟨ov.1, path, ov.2⟩]

/-- Patch calls the mirror sync loop issues for the items of one resync
event (part_000, lines 133-144): items without an extractable UID are
skipped, every other item becomes an add at `/resourceType/uid`. -/
def processResyncItems (resourceType : String) (items : List Json) : List PatchCall :=
  items.filterMap fun obj =>
    if getUID obj = "" then none
    else some ⟨"add", "/" ++ resourceType ++ "/" ++ getUID obj, some obj⟩

/-- Patch calls for one full resync event, including the one-time
collection-creation patch issued before the first resync is replayed
(part_000, lines 127-148). -/
def processResyncEvent (resourceType : String) (initialized : Bool) (items : List Json) :
    List PatchCall :=
  (if initialized then [] else [⟨"add", "/" ++ resourceType, some (Json.obj [])⟩]) ++
    processResyncItems resourceType items

/-- One value sent on a reflector's channel (`Rx` carries `interface{}`:
an error, a `*resyncObjects`, or a `*syncObject`). -/
inductive ReflectorEvent where
  | errorEvent (msg : String) : ReflectorEvent
  | resyncObjects (items : List Json) : ReflectorEvent
  | syncEvent (obj : syncObject) : ReflectorEvent

/-- Outcome of one `list` call (part_001 `list`): the items and the
resource-version cursor, or a failure (connection error, non-200 status,
undecodable or malformed body). -/
inductive ListResult where
  | ok (items : List Json) (version : String) : ListResult
  | listFail (msg : String) : ListResult

/-- Behaviour of one `watch` call (part_001 `watch`): either it fails
before decoding anything (request, connection or non-200 status), or the
stream yields `objs` decoded notifications and then ends — with `none`
standing for a clean end of stream (`io.EOF`) and `some e` for any other
decode error. -/
inductive WatchStream where
  | watchFail (msg : String) : WatchStream
  | decoded (objs : List syncObject) (endErr : Option String) : WatchStream

/-- Events the watch phase sends on the channel: one sync event per
decoded notification, in stream order. -/
def watchEmissions : WatchStream → List ReflectorEvent
  | .watchFail _ => []
  | .decoded objs _ => objs.map .syncEvent

/-- The error `watch` returns to `Start` (`none` models `io.EOF`; the
decode loop only exits through an error, so the clean-end case is exactly
`io.EOF`). -/
def watchResult : WatchStream → Option String
  | .watchFail e => some e
  | .decoded _ endErr => endErr

/-- Events one iteration of the `Start` loop (part_001, lines 58-72) sends
on the channel, given the list outcome and, for each cursor, how the watch
stream opened with that cursor behaves: a failed list emits its error; a
successful list emits one resync event, then the watch's sync events, then
the watch's returned error unless it is `io.EOF`. -/
def reflectorIteration (lr : ListResult) (watchAt : String → WatchStream) :
    List ReflectorEvent :=
  match lr with
  | .listFail e => [.errorEvent e]
  | .ok items version =>
    let w := watchAt version
    .resyncObjects items ::
      (watchEmissions w ++
        match watchResult w with
        | none => []
        | some e => [.errorEvent e])

/-- Events a finite prefix of the unbounded reflector loop sends: the loop
restarts unconditionally after each iteration, so the emissions
concatenate. -/
def reflectorRun : List (ListResult × (String → WatchStream)) → List ReflectorEvent
  | [] => []
  | (lr, w) :: rest => reflectorIteration lr w ++ reflectorRun rest

/-- Recognizer for resync events. -/
def isResyncEvt : ReflectorEvent → Bool
  | .resyncObjects _ => true
  | _ => false

/-- Recognizer for error events. -/
def isErrorEvt : ReflectorEvent → Bool
  | .errorEvent _ => true
  | _ => false

/-- Projection of a sync event to its notification. -/
def syncOf : ReflectorEvent → Option syncObject
  | .syncEvent o => some o
  | _ => none

/-- Whether a decoded value is a JSON object (the only shape Go's
`body.(map[string]interface{})` assertion accepts). -/
def isObjJson : Json → Bool
  | .obj _ => true
  | _ => false

/-- Lookup distributes over append, preferring the left map. -/
theorem findAnn_append (a b : AnnMap) (k : String) :
    findAnn (a ++ b) k = (findAnn a k).or (findAnn b k) := by
  induction a with
  | nil => simp [findAnn]
  | cons kv rest ih =>
    obtain ⟨k', v⟩ := kv
    by_cases h : k' = k <;> simp [findAnn, h, ih]

/-- Unfolding one step of the `applyAnnotations` loop. -/
theorem mergeFromExisting_cons (kv : String × String) (rest incoming : AnnMap) :
    mergeFromExisting (kv :: rest) incoming =
      mergeFromExisting rest (if hasAnn incoming kv.1 then incoming else incoming ++ [kv]) := rfl

/-- Lookup in the map built by the `applyAnnotations` loop: keys of the
incoming map keep their incoming value, keys only in the existing map keep
their existing value. -/
theorem mergeFromExisting_findAnn (origMap : AnnMap) :
    ∀ (incoming : AnnMap) (k : String),
      findAnn (mergeFromExisting origMap incoming) k =
        if hasAnn incoming k then findAnn incoming k else findAnn origMap k := by
  induction origMap with
  | nil =>
    intro incoming k
    unfold mergeFromExisting
    simp only [List.foldl_nil]
    cases h : findAnn incoming k <;> simp [hasAnn, h, findAnn]
  | cons kv rest ih =>
    intro incoming k
    obtain ⟨k', v⟩ := kv
    rw [mergeFromExisting_cons, ih]
    by_cases hk : k' = k
    · subst hk
      by_cases h1 : hasAnn incoming k'
      · simp [h1, findAnn, hasAnn] at *
        obtain ⟨w, hw⟩ := Option.isSome_iff_exists.mp h1
        simp [hw]
      · have hnone : findAnn incoming k' = none := by
          cases h : findAnn incoming k' with
          | none => rfl
          | some w => exact absurd (by simp [hasAnn, h]) h1
        simp [h1, findAnn_append, hasAnn, hnone, findAnn]
    · by_cases h1 : hasAnn incoming k'
      · simp [h1, findAnn, hk]
      · have hnone : findAnn incoming k' = none := by
          cases h : findAnn incoming k' with
          | none => rfl
          | some w => exact absurd (by simp [hasAnn, h]) h1
        have hsingle : findAnn [(k', v)] k = none := by simp [findAnn, hk]
        simp [hasAnn, hnone, findAnn_append, hsingle, findAnn, hk, Option.or_none]

/-- C1: for every pair of annotation maps, the merge performed by
`applyAnnotations` produces exactly incoming union (existing minus the
keys of incoming): at every key, the result holds incoming's value when
the key is in incoming, existing's value when it is only in existing, and
nothing otherwise; in particular existing "foo"="baz" with incoming
"foo"="bar" yields "foo"="bar", and existing "baz"="qux" with incoming
"foo"="bar" yields both "baz"="qux" and "foo"="bar". -/
theorem c1_applyAnnotations_union :
    (∀ (existing incoming : AnnMap) (rest : Json) (k : String),
      findAnn (applyAnnotations ⟨rest, some (some existing)⟩ incoming).2 k =
        if hasAnn incoming k then findAnn incoming k else findAnn existing k) ∧
    (applyAnnotations ⟨Json.null, some (some [("foo", "baz")])⟩ [("foo", "bar")]).2 =
      [("foo", "bar")] ∧
    findAnn (applyAnnotations ⟨Json.null, some (some [("baz", "qux")])⟩ [("foo", "bar")]).2
      "baz" = some "qux" ∧
    findAnn (applyAnnotations ⟨Json.null, some (some [("baz", "qux")])⟩ [("foo", "bar")]).2
      "foo" = some "bar" := by
  refine ⟨fun existing incoming rest k => ?_, by decide, by decide, by decide⟩
  simp only [applyAnnotations, Option.getD]
  exact mergeFromExisting_findAnn existing incoming k

/-- C2 counterexample: for existing annotations "foo"="baz" and
policy-supplied annotations "foo"="bar", the merged map holds "bar" —
the incoming policy value, not the existing one — under key "foo", so
existing keys do not take precedence. -/
theorem c2_counterexample :
    findAnn (applyAnnotations ⟨Json.null, some (some [("foo", "baz")])⟩
        [("foo", "bar")]).2 "foo" = some "bar" ∧
    findAnn (applyAnnotations ⟨Json.null, some (some [("foo", "baz")])⟩
        [("foo", "bar")]).2 "foo" ≠ some "baz" := by
  exact ⟨by decide, by decide⟩

/-- C2 amended: in the annotation merge of the annotate mode, for every
key present both in the object's existing annotations and in the
policy-supplied set, the merged result keeps the policy-supplied
(incoming) value — incoming keys take precedence — while every existing
key absent from the incoming set is kept with its existing value. -/
theorem c2_incoming_precedence (existing incoming : AnnMap) (rest : Json) (k : String)
    (_hex : hasAnn existing k = true) :
    (hasAnn incoming k = true →
      findAnn (applyAnnotations ⟨rest, some (some existing)⟩ incoming).2 k =
        findAnn incoming k) ∧
    (hasAnn incoming k = false →
      findAnn (applyAnnotations ⟨rest, some (some existing)⟩ incoming).2 k =
        findAnn existing k) := by
  have h := mergeFromExisting_findAnn existing incoming k
  constructor
  · intro hin
    simpa [applyAnnotations, hin] using h
  · intro hin
    simpa [applyAnnotations, hin] using h

/-- C2 amended, witnessed on the overlapping key "foo" and the
existing-only key "baz". -/
theorem c2_witness :
    findAnn (applyAnnotations ⟨Json.null, some (some [("foo", "baz")])⟩
        [("foo", "bar")]).2 "foo" = findAnn [("foo", "bar")] "foo" ∧
    findAnn (applyAnnotations ⟨Json.null, some (some [("baz", "qux")])⟩
        [("foo", "bar")]).2 "baz" = findAnn [("baz", "qux")] "baz" :=
  ⟨(c2_incoming_precedence [("foo", "baz")] [("foo", "bar")] Json.null "foo"
      (by decide)).1 (by decide),
   (c2_incoming_precedence [("baz", "qux")] [("foo", "bar")] Json.null "baz"
      (by decide)).2 (by decide)⟩

/-- C10: when the object's metadata.annotations field is reachable,
`applyAnnotations` inserts every key present only in the existing
annotations into the caller's incoming map and sets the object's
annotations field to that very map (the returned object's field and the
returned map coincide, the embedding's rendering of the in-place aliasing),
touching no other field; when the field is not reachable, both the object
and the incoming map are returned unchanged. -/
theorem c10_applyAnnotations_inplace :
    (∀ (rest : Json) (anns : AnnMap),
      applyAnnotations ⟨rest, none⟩ anns = (⟨rest, none⟩, anns)) ∧
    (∀ (rest : Json) (origOpt : Option AnnMap) (anns : AnnMap),
      (applyAnnotations ⟨rest, some origOpt⟩ anns).1 =
        ⟨rest, some (some (applyAnnotations ⟨rest, some origOpt⟩ anns).2)⟩) ∧
    (∀ (rest : Json) (origOpt : Option AnnMap) (anns : AnnMap) (k : String),
      findAnn (applyAnnotations ⟨rest, some origOpt⟩ anns).2 k =
        if hasAnn anns k then findAnn anns k else findAnn (origOpt.getD []) k) := by
  refine ⟨fun rest anns => rfl, fun rest origOpt anns => rfl,
    fun rest origOpt anns k => ?_⟩
  simp only [applyAnnotations]
  exact mergeFromExisting_findAnn (origOpt.getD []) anns k

/-- C4: in Mode A, Admit first queries the admit document — an undefined
result yields a forbidden error and a query error yields that error, in
both cases without querying the override document — and otherwise queries
the override document with the same request, where undefined and any
defined result both yield allow and a query error yields that error. -/
theorem c4_modeA_protocol (admitDoc overrideDoc : String) (query : String → QueryResult) :
    (query admitDoc = .undef →
      ModeA.Admit admitDoc overrideDoc query = (.forbidden undefinedMsg, [admitDoc])) ∧
    (∀ e, query admitDoc = .queryError e →
      ModeA.Admit admitDoc overrideDoc query = (.errorOut e, [admitDoc])) ∧
    (∀ v, query admitDoc = .success v →
      (query overrideDoc = .undef →
        ModeA.Admit admitDoc overrideDoc query = (.allow, [admitDoc, overrideDoc])) ∧
      (∀ e, query overrideDoc = .queryError e →
        ModeA.Admit admitDoc overrideDoc query = (.errorOut e, [admitDoc, overrideDoc])) ∧
      (∀ w, query overrideDoc = .success w →
        ModeA.Admit admitDoc overrideDoc query = (.allow, [admitDoc, overrideDoc]))) := by
  refine ⟨fun h => ?_, fun e h => ?_,
    fun v h => ⟨fun h2 => ?_, fun e h2 => ?_, fun w h2 => ?_⟩⟩ <;>
  simp [ModeA.Admit, *]

/-- C4 witnessed on concrete query oracles covering the undefined-admit
case (override unqueried) and the defined-admit, defined-override case. -/
theorem c4_witness :
    ModeA.Admit "a" "o" (fun _ => QueryResult.undef) =
      (.forbidden undefinedMsg, ["a"]) ∧
    ModeA.Admit "a" "o"
        (fun d => if d = "o" then QueryResult.success Json.null
                  else QueryResult.success (Json.num 1)) =
      (.allow, ["a", "o"]) :=
  ⟨(c4_modeA_protocol "a" "o" (fun _ => QueryResult.undef)).1 rfl,
   ((c4_modeA_protocol "a" "o"
        (fun d => if d = "o" then QueryResult.success Json.null
                  else QueryResult.success (Json.num 1))).2.2
      (Json.num 1) rfl).2.2 Json.null rfl⟩

/-- C3: in both modes, any policy-client query error fails the admission
request — Mode A returns the error itself from either query position,
the annotate mode wraps it in a forbidden error — and in no case does a
query error produce an allow. -/
theorem c3_queryError_fails_closed :
    (∀ (admitDoc overrideDoc : String) (query : String → QueryResult) (e : String),
      query admitDoc = .queryError e →
        (ModeA.Admit admitDoc overrideDoc query).1 = .errorOut e ∧
        (ModeA.Admit admitDoc overrideDoc query).1 ≠ .allow) ∧
    (∀ (admitDoc overrideDoc : String) (query : String → QueryResult) (v : Json)
        (e : String),
      query admitDoc = .success v → query overrideDoc = .queryError e →
        (ModeA.Admit admitDoc overrideDoc query).1 = .errorOut e ∧
        (ModeA.Admit admitDoc overrideDoc query).1 ≠ .allow) ∧
    (∀ (encode : K8sObject → Except String Json) (query : Json → QueryResult)
        (a : Attributes) (obj : K8sObject) (input : Json) (e : String),
      a.userName ≠ opaName → a.object = some obj → encode obj = .ok input →
      query input = .queryError e →
        (Federation.Admit encode query a).1 = .forbidden e ∧
        (Federation.Admit encode query a).1 ≠ .allow) := by
  refine ⟨fun aD oD q e h => ?_, fun aD oD q v e h h2 => ?_,
    fun enc q a obj input e hu ho he hq => ?_⟩
  · constructor <;> simp [ModeA.Admit, h]
  · constructor <;> simp [ModeA.Admit, h, h2]
  · constructor <;> simp [Federation.Admit, hu, ho, he, hq]

/-- C3 witnessed: a query error in the Mode A admit query, in the Mode A
override query, and in the annotate-mode query, each at concrete inputs. -/
theorem c3_witness :
    (ModeA.Admit "a" "o" (fun _ => QueryResult.queryError "boom")).1 =
      .errorOut "boom" ∧
    (ModeA.Admit "a" "o"
        (fun d => if d = "o" then QueryResult.queryError "boom"
                  else QueryResult.success Json.null)).1 = .errorOut "boom" ∧
    (Federation.Admit (fun _ => Except.ok Json.null)
        (fun _ => QueryResult.queryError "boom")
        ⟨"alice", some ⟨Json.null, none⟩⟩).1 = .forbidden "boom" :=
  ⟨((c3_queryError_fails_closed.1 "a" "o" (fun _ => QueryResult.queryError "boom")
      "boom") rfl).1,
   ((c3_queryError_fails_closed.2.1 "a" "o"
      (fun d => if d = "o" then QueryResult.queryError "boom"
                else QueryResult.success Json.null) Json.null "boom") rfl rfl).1,
   ((c3_queryError_fails_closed.2.2 (fun _ => Except.ok Json.null)
      (fun _ => QueryResult.queryError "boom") ⟨"alice", some ⟨Json.null, none⟩⟩
      ⟨Json.null, none⟩ Json.null "boom") (by decide) rfl rfl rfl).1⟩

/-- C6: in the annotate mode, a request whose acting identity is exempt
(the fixed "opa" identity in the federation variant, the configured
ignore list in the opa variant) or whose proposed object is absent is
allowed immediately, with no policy query issued and the proposed object
returned unchanged. -/
theorem c6_skip_paths :
    (∀ (encode : K8sObject → Except String Json) (query : Json → QueryResult)
        (o : Option K8sObject),
      Federation.Admit encode query ⟨opaName, o⟩ = (.allow, false, o)) ∧
    (∀ (encode : K8sObject → Except String Json) (query : Json → QueryResult)
        (u : String),
      Federation.Admit encode query ⟨u, none⟩ = (.allow, false, none)) ∧
    (∀ (names : List String) (encode : K8sObject → Except String Json)
        (query : Json → QueryResult) (a : Attributes),
      Opa.Ignored names a.userName = true →
      Opa.Admit names encode query a = (.allow, false, a.object)) ∧
    (∀ (names : List String) (encode : K8sObject → Except String Json)
        (query : Json → QueryResult) (u : String),
      Opa.Admit names encode query ⟨u, none⟩ = (.allow, false, none)) := by
  refine ⟨fun enc q o => by simp [Federation.Admit],
    fun enc q u => ?_, fun names enc q a h => by simp [Opa.Admit, h],
    fun names enc q u => ?_⟩
  · by_cases h : u = opaName <;> simp [Federation.Admit, h]
  · by_cases h : Opa.Ignored names u <;> simp [Opa.Admit, h]

/-- C6 witnessed: an identity on the configured ignore list is admitted
unchanged with no query issued. -/
theorem c6_witness :
    Opa.Admit ["alice"] (fun _ => Except.error "")
      (fun _ => QueryResult.undef) ⟨"alice", some ⟨Json.num 7, none⟩⟩ =
      (.allow, false, some ⟨Json.num 7, none⟩) :=
  c6_skip_paths.2.2.1 ["alice"] (fun _ => Except.error "")
    (fun _ => QueryResult.undef) ⟨"alice", some ⟨Json.num 7, none⟩⟩ (by decide)

/-- C9: in the annotate mode, a policy query that succeeds with a defined
result that is not a JSON object (a string, number, array, boolean or
null) makes Admit return a forbidden error from the annotation-decoding
failure, even though the transport succeeded and the document was
defined. -/
theorem c9_nonobject_result_denied
    (encode : K8sObject → Except String Json) (query : Json → QueryResult)
    (a : Attributes) (obj : K8sObject) (input v : Json)
    (hu : a.userName ≠ opaName) (ho : a.object = some obj)
    (he : encode obj = .ok input) (hq : query input = .success v)
    (hv : isObjJson v = false) :
    (Federation.Admit encode query a).1 = .forbidden unexpectedResultMsg := by
  have hdec : decodeAnnotations v = .error unexpectedResultMsg := by
    cases v <;> simp_all [decodeAnnotations, isObjJson]
  simp [Federation.Admit, hu, ho, he, hq, hdec]

/-- C9 witnessed on a defined string result. -/
theorem c9_witness :
    (Federation.Admit (fun _ => Except.ok (Json.str "in"))
        (fun _ => QueryResult.success (Json.str "out"))
        ⟨"alice", some ⟨Json.null, none⟩⟩).1 = .forbidden unexpectedResultMsg :=
  c9_nonobject_result_denied (fun _ => Except.ok (Json.str "in"))
    (fun _ => QueryResult.success (Json.str "out"))
    ⟨"alice", some ⟨Json.null, none⟩⟩ ⟨Json.null, none⟩ (Json.str "in")
    (Json.str "out") (by decide) rfl rfl rfl rfl

/-- Sync events derived from a watch stream contain no resync event. -/
theorem filter_isResync_map_sync (objs : List syncObject) :
    (objs.map ReflectorEvent.syncEvent).filter isResyncEvt = [] := by
  induction objs <;> simp_all [isResyncEvt]

/-- Sync events derived from a watch stream contain no error event. -/
theorem filter_isError_map_sync (objs : List syncObject) :
    (objs.map ReflectorEvent.syncEvent).filter isErrorEvt = [] := by
  induction objs <;> simp_all [isErrorEvt]

/-- Projecting the sync events out of a watch stream's emissions recovers
the decoded notifications. -/
theorem filterMap_syncOf_map (objs : List syncObject) :
    objs.filterMap (syncOf ∘ ReflectorEvent.syncEvent) = objs := by
  induction objs <;> simp_all [syncOf, Function.comp]

/-- C7: for every event of the mirror sync loop, the patch path is exactly
"/" ++ resourceType ++ "/" ++ uid where uid is the string at the object's
metadata.uid regardless of the object's other fields; Added maps to an add
patch carrying the object, Modified to a replace patch carrying the
object, Deleted to a remove patch with no value; every replayed resync
item is an add patch at its object's key; and an item without an
extractable uid is skipped without affecting the remaining items. -/
theorem c7_mirror_sync :
    (∀ (fields mfields : List (String × Json)) (u : String),
      findMember fields "metadata" = some (.obj mfields) →
      findMember mfields "uid" = some (.str u) →
      getUID (.obj fields) = u) ∧
    (∀ (rt : String) (obj : Json), getUID obj ≠ "" →
      processSyncEvent rt ⟨added, obj⟩ =
        [⟨"add", "/" ++ rt ++ "/" ++ getUID obj, some obj⟩] ∧
      processSyncEvent rt ⟨modified, obj⟩ =
        [⟨"replace", "/" ++ rt ++ "/" ++ getUID obj, some obj⟩] ∧
      processSyncEvent rt ⟨deleted, obj⟩ =
        [⟨"remove", "/" ++ rt ++ "/" ++ getUID obj, none⟩]) ∧
    (∀ (rt : String) (items : List Json), ∀ p ∈ processResyncItems rt items,
      p.op = "add" ∧ ∃ obj ∈ items, getUID obj ≠ "" ∧
        p.path = "/" ++ rt ++ "/" ++ getUID obj ∧ p.value = some obj) ∧
    (∀ (rt : String) (obj : Json) (items : List Json), getUID obj = "" →
      processResyncItems rt (obj :: items) = processResyncItems rt items) ∧
    (∀ (rt : String) (msg : syncObject), getUID msg.object = "" →
      processSyncEvent rt msg = []) := by
  refine ⟨fun fields mfields u h1 h2 => ?_, fun rt obj h => ?_,
    fun rt items p hp => ?_, fun rt obj items h => ?_, fun rt msg h => ?_⟩
  · simp [getUID, h1, h2]
  · refine ⟨?_, ?_, ?_⟩ <;>
      simp [processSyncEvent, syncOpFor, added, modified, deleted, h]
  · rw [processResyncItems, List.mem_filterMap] at hp
    obtain ⟨obj, hmem, hobj⟩ := hp
    by_cases hx : getUID obj = ""
    · rw [if_pos hx] at hobj
      exact Option.noConfusion hobj
    · rw [if_neg hx] at hobj
      obtain rfl := Option.some_inj.mp hobj
      exact ⟨rfl, obj, hmem, hx, rfl, rfl⟩
  · simp [processResyncItems, List.filterMap_cons, h]
  · simp [processSyncEvent, h]

/-- C7 witnessed on a concrete pod object with uid "u1" and an extra
field, plus a uid-less object skipped ahead of it in a resync. -/
theorem c7_witness :
    getUID (Json.obj [("metadata", Json.obj [("uid", Json.str "u1")]),
      ("spec", Json.num 3)]) = "u1" ∧
    processSyncEvent "pods"
        ⟨added, Json.obj [("metadata", Json.obj [("uid", Json.str "u1")])]⟩ =
      [⟨"add", "/pods/" ++ getUID (Json.obj [("metadata", Json.obj [("uid", Json.str "u1")])]),
        some (Json.obj [("metadata", Json.obj [("uid", Json.str "u1")])])⟩] ∧
    processResyncItems "pods"
        (Json.num 1 :: [Json.obj [("metadata", Json.obj [("uid", Json.str "u1")])]]) =
      processResyncItems "pods" [Json.obj [("metadata", Json.obj [("uid", Json.str "u1")])]] :=
  ⟨c7_mirror_sync.1 [("metadata", Json.obj [("uid", Json.str "u1")]), ("spec", Json.num 3)]
      [("uid", Json.str "u1")] "u1" rfl rfl,
   (c7_mirror_sync.2.1 "pods" (Json.obj [("metadata", Json.obj [("uid", Json.str "u1")])])
      (by decide)).1,
   c7_mirror_sync.2.2.2.1 "pods" (Json.num 1)
      [Json.obj [("metadata", Json.obj [("uid", Json.str "u1")])]] rfl⟩

/-- C8: a successful list emits exactly one resync event, carrying the
listed items, as the first event, before the sync events decoded from the
watch opened with that list's cursor; a failed list emits its error as the
only event of the iteration and the loop continues with the next
iteration; a watch ending in a clean end of stream contributes no error
event; any other watch error is emitted as the iteration's last event. -/
theorem c8_reflector_ordering :
    (∀ (items : List Json) (v : String) (watchAt : String → WatchStream),
      (reflectorIteration (.ok items v) watchAt).head? =
        some (.resyncObjects items) ∧
      (reflectorIteration (.ok items v) watchAt).filter isResyncEvt =
        [.resyncObjects items] ∧
      (reflectorIteration (.ok items v) watchAt).filterMap syncOf =
        (match watchAt v with
         | .watchFail _ => []
         | .decoded objs _ => objs)) ∧
    (∀ (e : String) (watchAt : String → WatchStream),
      reflectorIteration (.listFail e) watchAt = [.errorEvent e]) ∧
    (∀ (lr : ListResult) (w : String → WatchStream)
        (rest : List (ListResult × (String → WatchStream))),
      reflectorRun ((lr, w) :: rest) = reflectorIteration lr w ++ reflectorRun rest) ∧
    (∀ (items : List Json) (v : String) (watchAt : String → WatchStream)
        (objs : List syncObject),
      watchAt v = .decoded objs none →
      (reflectorIteration (.ok items v) watchAt).filter isErrorEvt = []) ∧
    (∀ (items : List Json) (v : String) (watchAt : String → WatchStream)
        (objs : List syncObject) (e : String),
      watchAt v = .decoded objs (some e) →
      (reflectorIteration (.ok items v) watchAt).getLast? =
        some (.errorEvent e)) ∧
    (∀ (items : List Json) (v : String) (watchAt : String → WatchStream) (e : String),
      watchAt v = .watchFail e →
      reflectorIteration (.ok items v) watchAt =
        [.resyncObjects items, .errorEvent e]) := by
  refine ⟨fun items v watchAt => ⟨?_, ?_, ?_⟩, fun e watchAt => rfl,
    fun lr w rest => rfl, fun items v watchAt objs h => ?_,
    fun items v watchAt objs e h => ?_, fun items v watchAt e h => ?_⟩
  · cases h : watchAt v <;>
      simp [reflectorIteration, h, watchEmissions, watchResult]
  · cases h : watchAt v with
    | watchFail e =>
      simp [reflectorIteration, h, watchEmissions, watchResult, isResyncEvt, isErrorEvt]
    | decoded objs endErr =>
      cases endErr <;>
        simp [reflectorIteration, h, watchEmissions, watchResult, isResyncEvt,
          isErrorEvt, filter_isResync_map_sync]
  · cases h : watchAt v with
    | watchFail e =>
      simp [reflectorIteration, h, watchEmissions, watchResult, syncOf]
    | decoded objs endErr =>
      cases endErr <;>
        simp [reflectorIteration, h, watchEmissions, watchResult, syncOf,
          filterMap_syncOf_map]
  · simp [reflectorIteration, h, watchEmissions, watchResult, isErrorEvt,
      filter_isError_map_sync]
  · simp only [reflectorIteration, h, watchEmissions, watchResult]
    rw [← List.cons_append, List.getLast?_concat]
  · simp [reflectorIteration, h, watchEmissions, watchResult]

/-- C8 witnessed on a concrete two-iteration run: a list of two items
followed by a watch with one ADDED notification that errors, and a failed
list. -/
theorem c8_witness :
    (reflectorIteration (.ok [Json.num 1, Json.num 2] "v1")
        (fun _ => .decoded [⟨added, Json.num 3⟩] (some "reset"))).head? =
      some (.resyncObjects [Json.num 1, Json.num 2]) ∧
    (reflectorIteration (.ok [Json.num 1, Json.num 2] "v1")
        (fun _ => .decoded [⟨added, Json.num 3⟩] (some "reset"))).getLast? =
      some (.errorEvent "reset") ∧
    (reflectorIteration (.ok [] "v2")
        (fun _ => .decoded [] none)).filter isErrorEvt = [] ∧
    reflectorIteration (.listFail "down") (fun _ => .decoded [] none) =
      [.errorEvent "down"] :=
  ⟨(c8_reflector_ordering.1 [Json.num 1, Json.num 2] "v1"
      (fun _ => .decoded [⟨added, Json.num 3⟩] (some "reset"))).1,
   c8_reflector_ordering.2.2.2.2.1 [Json.num 1, Json.num 2] "v1"
      (fun _ => .decoded [⟨added, Json.num 3⟩] (some "reset"))
      [⟨added, Json.num 3⟩] "reset" rfl,
   c8_reflector_ordering.2.2.2.1 [] "v2" (fun _ => .decoded [] none) [] rfl,
   c8_reflector_ordering.2.1 "down" (fun _ => .decoded [] none)⟩

/-- The GET/globals client only answers undefined for a 404 whose
decodable body is an object with a non-null IsUndefined member. -/
theorem httpClientQuery_undef_shape (r : HttpResult)
    (h : httpClientQuery r = .undef) :
    ∃ ct v, r = .response 404 ct (some v) ∧
      hasNonNullMember v "IsUndefined" = true := by
  cases r with
  | connError e => exact QueryResult.noConfusion h
  | response status ct body =>
    cases body with
    | none => exact QueryResult.noConfusion h
    | some v =>
      by_cases h200 : status = 200
      · subst h200
        simp [httpClientQuery] at h
      · by_cases h404 : status = 404
        · subst h404
          cases hm : hasNonNullMember v "IsUndefined" with
          | true => exact ⟨ct, v, rfl, hm⟩
          | false => simp [httpClientQuery, hm] at h
        · simp [httpClientQuery, h200, h404] at h

/-- The POST/input client only answers undefined for a 404 response. -/
theorem requestDo_undef_shape (r : Request) (http : HttpResult)
    (h : Request.Do r http = .undef) :
    ∃ ct body, http = .response 404 ct body := by
  cases http with
  | connError e =>
    exfalso
    simp only [Request.Do] at h
    repeat' split at h
    all_goals exact QueryResult.noConfusion h
  | response status ct body =>
    by_cases h404 : status = 404
    · exact ⟨ct, body, by rw [h404]⟩
    · exfalso
      simp only [Request.Do] at h
      repeat' split at h
      all_goals
        first
        | exact QueryResult.noConfusion h
        | exact h404 (by assumption)

/-- C5 counterexample: in the GET/globals variant, a 404 whose decoded
body is an object containing an IsUndefined member — with the JSON value
null — is classified as a generic query error, not as the Undefined
outcome, because a null member decodes to a nil interface value and the
non-nil check fails. -/
theorem c5_counterexample :
    httpClientQuery (HttpResult.response 404 true
        (some (Json.obj [("IsUndefined", Json.null)]))) =
      QueryResult.queryError ("bad response: " ++ toString (404 : Nat)) ∧
    httpClientQuery (HttpResult.response 404 true
        (some (Json.obj [("IsUndefined", Json.null)]))) ≠ QueryResult.undef := by
  have h : httpClientQuery (HttpResult.response 404 true
      (some (Json.obj [("IsUndefined", Json.null)]))) =
      QueryResult.queryError ("bad response: " ++ toString (404 : Nat)) := rfl
  exact ⟨h, fun hc => QueryResult.noConfusion (h.symm.trans hc)⟩

/-- C5 amended: HTTP 200 with a decodable body is success carrying the
result; in the GET/globals variant, Undefined is returned exactly when
the status is 404 and the decoded body is an object containing an
IsUndefined member whose value is not JSON null; in the POST/input
variant every 404 is Undefined; every other non-2xx status, body-decode
failure, or connection failure is a generic QueryError and never
Undefined. -/
theorem c5_client_classification :
    (∀ (ct : Bool) (v : Json),
      httpClientQuery (.response 200 ct (some v)) = .success v) ∧
    (∀ (e : String), httpClientQuery (.connError e) = .queryError e) ∧
    (∀ (status : Nat) (ct : Bool),
      httpClientQuery (.response status ct none) = .queryError decodeFailureMsg) ∧
    (∀ (status : Nat) (ct : Bool) (v : Json),
      httpClientQuery (.response status ct (some v)) = .undef ↔
        status = 404 ∧ hasNonNullMember v "IsUndefined" = true) ∧
    (∀ (status : Nat) (ct : Bool) (v : Json), status ≠ 200 →
      ¬(status = 404 ∧ hasNonNullMember v "IsUndefined" = true) →
      httpClientQuery (.response status ct (some v)) =
        .queryError ("bad response: " ++ toString status)) ∧
    (∀ (r : Request) (input : Json) (ct : Bool) (body : Option Json),
      r.queryPath ≠ "" → r.input = some input →
      Request.Do r (.response 404 ct body) = .undef) ∧
    (∀ (r : Request) (status : Nat) (ct : Bool) (body : Option Json),
      status ≠ 404 → Request.Do r (.response status ct body) ≠ .undef) ∧
    (∀ (r : Request) (e : String), Request.Do r (.connError e) ≠ .undef) ∧
    (∀ (r : Request) (input : Json) (ct : Bool) (b res : Json),
      r.queryPath ≠ "" → r.input = some input → decodeDataResponseV1 b = some res →
      Request.Do r (.response 200 ct (some b)) = .success res) ∧
    (∀ (r : Request) (input : Json) (ct : Bool),
      r.queryPath ≠ "" → r.input = some input →
      Request.Do r (.response 200 ct none) = .queryError decodeFailureMsg) ∧
    (∀ (r : Request) (input : Json) (e : String),
      r.queryPath ≠ "" → r.input = some input →
      Request.Do r (.connError e) = .queryError e) ∧
    (∀ (r : Request) (input : Json) (status : Nat) (ct : Bool) (body : Option Json),
      r.queryPath ≠ "" → r.input = some input → status ≠ 200 → status ≠ 404 →
      ∃ m, Request.Do r (.response status ct body) = .queryError m) := by
  refine ⟨fun ct v => by simp [httpClientQuery], fun e => rfl,
    fun status ct => rfl, fun status ct v => ?_, fun status ct v h200 hrest => ?_,
    fun r input ct body hp hi => by simp [Request.Do, hp, hi],
    fun r status ct body h404 h => ?_, fun r e h => ?_,
    fun r input ct b res hp hi hd => by simp [Request.Do, hp, hi, hd],
    fun r input ct hp hi => by simp [Request.Do, hp, hi],
    fun r input e hp hi => by simp [Request.Do, hp, hi],
    fun r input status ct body hp hi h200 h404 => ?_⟩
  · constructor
    · intro h
      obtain ⟨ct', v', heq, hm⟩ := httpClientQuery_undef_shape _ h
      obtain ⟨h1, h2, h3⟩ := HttpResult.response.inj heq
      exact ⟨h1, by rw [Option.some_inj.mp h3]; exact hm⟩
    · rintro ⟨rfl, hm⟩
      simp [httpClientQuery, hm]
  · by_cases h404 : status = 404
    · subst h404
      have hm : hasNonNullMember v "IsUndefined" = false := by
        cases hmc : hasNonNullMember v "IsUndefined" with
        | false => rfl
        | true => exact absurd ⟨rfl, hmc⟩ hrest
      simp [httpClientQuery, h200, hm]
    · simp [httpClientQuery, h200, h404]
  · obtain ⟨ct', body', heq⟩ := requestDo_undef_shape r _ h
    exact h404 (HttpResult.response.inj heq).1
  · obtain ⟨ct', body', heq⟩ := requestDo_undef_shape r _ h
    exact HttpResult.noConfusion heq
  · simp only [Request.Do, hi]
    rw [if_neg hp, if_neg h404, if_neg h200]
    cases ct with
    | false => exact ⟨_, rfl⟩
    | true =>
      cases body with
      | none => exact ⟨_, rfl⟩
      | some b =>
        cases hd : decodeErrorResponseV1 b with
        | none => exact ⟨decodeFailureMsg, by simp [hd]⟩
        | some cm =>
          exact ⟨"code " ++ toString cm.1 ++ ": " ++ cm.2, by simp [hd]⟩

/-- C5 witnessed: the GET variant's undefined case with a true-valued
marker, the POST variant's blanket 404 rule, and a POST 500 classified as
an error, at concrete inputs. -/
theorem c5_witness :
    (httpClientQuery (.response 404 true
        (some (Json.obj [("IsUndefined", Json.bool true)]))) = .undef ↔
      (404 : Nat) = 404 ∧
        hasNonNullMember (Json.obj [("IsUndefined", Json.bool true)]) "IsUndefined" = true) ∧
    Request.Do ⟨"http://opa", "/io/k8s/federation/annotations", some Json.null⟩
        (.response 404 false none) = .undef ∧
    (∃ m, Request.Do ⟨"http://opa", "/io/k8s/federation/annotations", some Json.null⟩
        (.response 500 false none) = .queryError m) :=
  ⟨c5_client_classification.2.2.2.1 404 true (Json.obj [("IsUndefined", Json.bool true)]),
   c5_client_classification.2.2.2.2.2.1
     ⟨"http://opa", "/io/k8s/federation/annotations", some Json.null⟩ Json.null false none
     (by decide) rfl,
   c5_client_classification.2.2.2.2.2.2.2.2.2.2.2
     ⟨"http://opa", "/io/k8s/federation/annotations", some Json.null⟩ Json.null 500 false none
     (by decide) rfl (by decide) (by decide)⟩




